import Mathlib

/-
  Verification development for the Covey.Town Town Controller subsystem
  (repository jchun0627/CS-4530-HW-Assignments).

  The repository snapshot contains the sidebar UI components
  (PlayersList.tsx, ConversationAreasList.tsx, ConversationAreaComponent.tsx)
  and the full test suite of CoveyTownController; the controller classes
  themselves (CoveyTownController, CoveyTownsStore, ConversationArea,
  the request handlers) are not in the snapshot.  Where a definition below
  embeds such a missing class it is marked "Modelled from the spec:" and
  follows the specification text (sections 3, 4.1-4.4), cross-checked
  against the concrete expectations of the in-repository test suite.

  Machine numbers: the TypeScript code stores coordinates in IEEE doubles
  but every coordinate exercised by the program and its tests is a small
  integer, and the only arithmetic performed on coordinates is
  center plus-or-minus extent/2 comparisons.  We embed coordinates as Int and carry
  out those comparisons on doubled coordinates (2*x compared against
  2*cx - w and 2*cx + w), which is exact.
-/

/-- A user location as in CoveyTypes.ts:
`{x, y, rotation, moving, conversationLabel?}`. -/
structure UserLocation where
  x : Int
  y : Int
  rotation : String
  moving : Bool
  conversationLabel : Option String
deriving Repr, DecidableEq

/-- A bounding box `{x, y, width, height}` where `(x, y)` is the center. -/
structure BoundingBox where
  x : Int
  y : Int
  width : Int
  height : Int
deriving Repr, DecidableEq

/-- Modelled from the spec: a ConversationArea (section 3) is a labelled
rectangle with a topic and an insertion-ordered list of occupant IDs.
The class `classes/ConversationArea` is not in the repository snapshot. -/
structure ConversationArea where
  label : String
  topic : String
  boundingBox : BoundingBox
  occupantsByID : List String
deriving Repr, DecidableEq

/-- Modelled from the spec: a Player (section 3).  The TypeScript field
`activeConversationArea` holds a reference to the area object; since live
areas have unique labels we embed the reference as the area's label. -/
structure Player where
  id : String
  userName : String
  location : UserLocation
  activeConversationArea : Option String
deriving Repr, DecidableEq

/-- Modelled from the spec: a PlayerSession (section 3) binds a session
token to a player (the video token plays no role in any claim). -/
structure PlayerSession where
  sessionToken : String
  playerID : String
deriving Repr, DecidableEq

/-- Modelled from the spec: the mutable collections of a TownController
(section 3).  Town listeners are embedded by opaque identifiers. -/
structure TownState where
  players : List Player
  sessions : List PlayerSession
  conversationAreas : List ConversationArea
  listeners : List String
deriving Repr, DecidableEq

/-- Modelled from the spec: the sentinel topic string NO_TOPIC marking a
pending/inactive area (glossary; the constant lives in the missing
`classes/ConversationArea` file). -/
def NO_TOPIC : String := "(No topic)"

/-- The frontend constant NO_TOPIC_STRING exported by
`classes/ConversationArea` (imported by ConversationAreasList.tsx); the
same sentinel as the server-side NO_TOPIC. -/
def NO_TOPIC_STRING : String := NO_TOPIC

/-- The notifications a CoveyTownListener can receive, tagged with the
payload identity (player id / area label). -/
inductive TownEvent where
  | playerJoined (playerID : String)
  | playerMoved (playerID : String)
  | playerDisconnected (playerID : String)
  | conversationAreaUpdated (label : String)
  | conversationAreaDestroyed (label : String)
  | townDestroyed
deriving Repr, DecidableEq

/-- Strict containment of the point `(px, py)` in the open rectangle
`(x-w/2, x+w/2) × (y-h/2, y+h/2)` of a bounding box, computed on doubled
coordinates so that the half-extents stay integral.  Boundary points are
outside (spec section 3, "Boundary points are outside"). -/
def strictlyInside (b : BoundingBox) (px py : Int) : Bool :=
  (2 * b.x - b.width < 2 * px) && (2 * px < 2 * b.x + b.width) &&
  (2 * b.y - b.height < 2 * py) && (2 * py < 2 * b.y + b.height)

/-- The point `(px, py)` lies exactly on the boundary of the (closed)
bounding rectangle of `b`: on a vertical edge with `y` in closed range, or
on a horizontal edge with `x` in closed range. -/
def onBoundary (b : BoundingBox) (px py : Int) : Bool :=
  (((2 * px == 2 * b.x - b.width) || (2 * px == 2 * b.x + b.width)) &&
     (2 * b.y - b.height ≤ 2 * py) && (2 * py ≤ 2 * b.y + b.height)) ||
  (((2 * py == 2 * b.y - b.height) || (2 * py == 2 * b.y + b.height)) &&
     (2 * b.x - b.width ≤ 2 * px) && (2 * px ≤ 2 * b.x + b.width))

/-- Overlap of two bounding boxes: non-empty intersection of the open
rectangles (spec section 3 invariant), on doubled coordinates. -/
def boxesOverlap (a b : BoundingBox) : Bool :=
  (2 * a.x - a.width < 2 * b.x + b.width) &&
  (2 * b.x - b.width < 2 * a.x + a.width) &&
  (2 * a.y - a.height < 2 * b.y + b.height) &&
  (2 * b.y - b.height < 2 * a.y + a.height)

/-- Look up a live conversation area by label. -/
def findArea (areas : List ConversationArea) (lbl : String) : Option ConversationArea :=
  areas.find? (fun a => a.label == lbl)

/-- Look up a player by id. -/
def findPlayer (st : TownState) (pid : String) : Option Player :=
  st.players.find? (fun p => p.id == pid)

/-- Modelled from the spec: step 1 of updatePlayerLocation (section 4.1,
"Area resolution").  A present label naming a live area wins regardless of
coordinates; an absent label, an empty label, or a label naming a
non-existent/destroyed area resolves to no intended area. -/
def intendedArea (areas : List ConversationArea) (conversationLabel : Option String) :
    Option String :=
  match conversationLabel with
  | none => none
  | some lbl => if lbl != "" && (findArea areas lbl).isSome then some lbl else none

/-- Modelled from the spec: the occupant-removal path (section 4.1 step 3,
"Removal from old").  Deleting the last occupant destroys the area and
fires onConversationAreaDestroyed; otherwise the shrunk area stays and
onConversationAreaUpdated fires. -/
def removeOccupant (areas : List ConversationArea) (lbl pid : String) :
    List ConversationArea × List TownEvent :=
  match findArea areas lbl with
  | none => (areas, [])
  | some old =>
    let remaining := old.occupantsByID.filter (fun i => i != pid)
    if remaining.isEmpty then
      (areas.filter (fun a => a.label != lbl), [TownEvent.conversationAreaDestroyed lbl])
    else
      (areas.map (fun a => if a.label == lbl then { a with occupantsByID := remaining } else a),
       [TownEvent.conversationAreaUpdated lbl])

/-- Modelled from the spec: the occupant-addition path (section 4.1 step 3,
"Addition to new"): append the id (no duplicates) and fire
onConversationAreaUpdated. -/
def addOccupant (areas : List ConversationArea) (lbl pid : String) :
    List ConversationArea × List TownEvent :=
  match findArea areas lbl with
  | none => (areas, [])
  | some _ =>
    (areas.map (fun a =>
        if a.label == lbl then
          { a with occupantsByID :=
              if a.occupantsByID.contains pid then a.occupantsByID
              else a.occupantsByID ++ [pid] }
        else a),
     [TownEvent.conversationAreaUpdated lbl])

/-- Modelled from the spec: steps 2-3 of updatePlayerLocation (transition
detection and occupant bookkeeping): no area change means no area events;
otherwise remove from the old area (if any) then add to the new (if any). -/
def transitionAreas (areas : List ConversationArea) (pid : String)
    (current intended : Option String) : List ConversationArea × List TownEvent :=
  if intended = current then (areas, [])
  else
    let r :=
      match current with
      | none => (areas, ([] : List TownEvent))
      | some oldLbl => removeOccupant areas oldLbl pid
    match intended with
    | none => r
    | some newLbl =>
      let a := addOccupant r.1 newLbl pid
      (a.1, r.2 ++ a.2)

/-- Modelled from the spec: updatePlayerLocation (section 4.1).  Resolves
the intended area from the reported conversationLabel, performs the area
transition, commits the new location and active area on the player, and
fires onPlayerMoved last. -/
def updatePlayerLocation (st : TownState) (pid : String) (newLoc : UserLocation) :
    TownState × List TownEvent :=
  match findPlayer st pid with
  | none => (st, [])
  | some p =>
    let intended := intendedArea st.conversationAreas newLoc.conversationLabel
    let t := transitionAreas st.conversationAreas pid p.activeConversationArea intended
    ({ st with
        players := st.players.map (fun q =>
          if q.id == pid then
            { q with location := newLoc, activeConversationArea := intended }
          else q),
        conversationAreas := t.1 },
     t.2 ++ [TownEvent.playerMoved pid])

/-- Whether a player at location `loc` with no active area is swept into a
freshly created area `a` (spec section 4.1, addConversationArea scan:
strictly inside the box and currently in no area). -/
def enrolledOnCreate (a : ConversationArea) (p : Player) : Bool :=
  strictlyInside a.boundingBox p.location.x p.location.y && p.activeConversationArea.isNone

/-- Modelled from the spec: addConversationArea (section 4.1).  Rejects
(false, no state change, no events) on a NO_TOPIC topic, a duplicate live
label, or an open-rectangle overlap with a live area; otherwise installs
the area, enrolls every player strictly inside it whose active area is
absent, and fires onConversationAreaUpdated once. -/
def addConversationArea (st : TownState) (area : ConversationArea) :
    Bool × TownState × List TownEvent :=
  if area.topic == NO_TOPIC then (false, st, [])
  else if st.conversationAreas.any (fun b => b.label == area.label) then (false, st, [])
  else if st.conversationAreas.any (fun b => boxesOverlap area.boundingBox b.boundingBox) then
    (false, st, [])
  else
    let installed :=
      { area with occupantsByID := (st.players.filter (enrolledOnCreate area)).map (·.id) }
    (true,
     { st with
        players := st.players.map (fun p =>
          if enrolledOnCreate area p then
            { p with activeConversationArea := some area.label }
          else p),
        conversationAreas := st.conversationAreas ++ [installed] },
     [TownEvent.conversationAreaUpdated area.label])

/-- Modelled from the spec: addPlayer (section 4.1), with the fresh
session token supplied as an argument (token generation is random in the
source).  Registers the player and the session and fires onPlayerJoined. -/
def addPlayer (st : TownState) (p : Player) (token : String) :
    TownState × List TownEvent :=
  ({ st with
      players := st.players ++ [p],
      sessions := st.sessions ++ [{ sessionToken := token, playerID := p.id }] },
   [TownEvent.playerJoined p.id])

/-- Modelled from the spec: destroySession (section 4.1).  Removes the
player from players and sessions; if the player occupied an area the
occupant-removal path runs (possibly destroying the area); fires
onPlayerDisconnected. -/
def destroySession (st : TownState) (token : String) : TownState × List TownEvent :=
  match st.sessions.find? (fun s => s.sessionToken == token) with
  | none => (st, [])
  | some sess =>
    match findPlayer st sess.playerID with
    | none =>
      ({ st with sessions := st.sessions.filter (fun s => s.sessionToken != token) }, [])
    | some p =>
      let r :=
        match p.activeConversationArea with
        | none => (st.conversationAreas, ([] : List TownEvent))
        | some lbl => removeOccupant st.conversationAreas lbl p.id
      ({ players := st.players.filter (fun q => q.id != p.id),
         sessions := st.sessions.filter (fun s => s.sessionToken != token),
         conversationAreas := r.1,
         listeners := st.listeners },
       r.2 ++ [TownEvent.playerDisconnected p.id])

/-- Dispatch of a batch of events to the currently registered town
listeners: every registered listener receives every event of the batch. -/
def notifyListeners (st : TownState) (evts : List TownEvent) : List (String × TownEvent) :=
  (evts.map (fun e => st.listeners.map (fun l => (l, e)))).flatten

/-- Modelled from the spec: the process-wide TownsStore (section 4.3),
a registry of controllers keyed by townID. -/
structure TownStore where
  towns : List (String × TownState)
deriving Repr, DecidableEq

/-- Look up the controller of a town. -/
def lookupTown (store : TownStore) (townID : String) : Option TownState :=
  (store.towns.find? (fun t => t.1 == townID)).map (·.2)

/-- Replace the controller registered under `townID`. -/
def setTown (store : TownStore) (townID : String) (st : TownState) : TownStore :=
  ⟨store.towns.map (fun t => if t.1 == townID then (t.1, st) else t)⟩

/-- Outcome of a subscription attempt: either the socket is disconnected
with a reason flag, or the handler accepted and mutated the store. -/
inductive SubscribeOutcome where
  | disconnected (reason : Bool)
  | accepted (store : TownStore)
deriving Repr, DecidableEq

/-- Modelled from the spec: townSubscriptionHandler (section 4.4).  An
unknown townID or a sessionToken unknown to that town's controller causes
`socket.disconnect(true)`; otherwise the per-socket bridging listener is
registered on the controller. -/
def townSubscriptionHandler (store : TownStore) (townID sessionToken listenerID : String) :
    SubscribeOutcome :=
  match lookupTown store townID with
  | none => SubscribeOutcome.disconnected true
  | some town =>
    if town.sessions.any (fun s => s.sessionToken == sessionToken) then
      SubscribeOutcome.accepted
        (setTown store townID { town with listeners := town.listeners ++ [listenerID] })
    else SubscribeOutcome.disconnected true

/-- Modelled from the spec: the socket `disconnect` handler registered by
townSubscriptionHandler (section 4.4): it removes the bridging listener
and destroys the backing session. -/
def socketDisconnect (store : TownStore) (townID sessionToken listenerID : String) :
    TownStore :=
  match lookupTown store townID with
  | none => store
  | some town =>
    let town1 := { town with listeners := town.listeners.filter (fun l => l != listenerID) }
    setTown store townID (destroySession town1 sessionToken).1

/-- Number of onConversationAreaUpdated notifications in an event batch. -/
def countUpdated (evts : List TownEvent) : Nat :=
  (evts.filter (fun e => match e with
    | TownEvent.conversationAreaUpdated _ => true
    | _ => false)).length

/-- Number of onConversationAreaDestroyed notifications in an event batch. -/
def countDestroyed (evts : List TownEvent) : Nat :=
  (evts.filter (fun e => match e with
    | TownEvent.conversationAreaDestroyed _ => true
    | _ => false)).length

/- ------------------------------------------------------------------
   Frontend components present in the repository snapshot.
   ------------------------------------------------------------------ -/

/-- The render result of ConversationAreasList: either the literal text
"No active conversation areas", or one ConvoAreaComponent per area, in
order. -/
inductive AreasListView where
  | noActiveMessage
  | areaComponents (areas : List ConversationArea)
deriving Repr, DecidableEq

/-- ConversationAreasList (ConversationAreasList.tsx lines 75-89): filter
the hook's areas to those whose topic differs from NO_TOPIC_STRING; if
none remain render the "No active conversation areas" text, else render a
ConvoAreaComponent per remaining area in the filtered order (the source
performs no sort). -/
def ConversationAreasList (areas : List ConversationArea) : AreasListView :=
  let conversationAreaList := areas.filter (fun a => a.topic != NO_TOPIC_STRING)
  if conversationAreaList.length == 0 then AreasListView.noActiveMessage
  else AreasListView.areaComponents conversationAreaList

/-- The occupant-state update performed by the component's
onOccupantsChange listener (ConversationAreaComponent.tsx lines 18-23):
`if (newOccupants) setOccupants(newOccupants)` — an undefined payload
(the destruction signal) leaves the displayed occupants unchanged. -/
def onOccupantsChangeListener (occupants : List String)
    (newOccupants : Option (List String)) : List String :=
  match newOccupants with
  | some l => l
  | none => occupants

/-- Modelled from the spec: ConversationArea.addListener (section 4.2; the
class file is not in the snapshot) appends the listener to the area's own
listener list. -/
def addAreaListener (listeners : List String) (lid : String) : List String :=
  listeners ++ [lid]

/-- Modelled from the spec: ConversationArea.removeListener removes the
given listener, matching by identity. -/
def removeAreaListener (listeners : List String) (lid : String) : List String :=
  listeners.filter (fun l => l != lid)

/-- Mount effect of the conversation-area component
(ConversationAreaComponent.tsx lines 17-28): register one freshly created
onOccupantsChange listener on the area. -/
def mountConvoAreaComponent (listeners : List String) (lid : String) : List String :=
  addAreaListener listeners lid

/-- Unmount cleanup of the conversation-area component: remove the same
listener that the mount effect registered. -/
def unmountConvoAreaComponent (listeners : List String) (lid : String) : List String :=
  removeAreaListener listeners lid

/- ------------------------------------------------------------------
   Shared list lemmas.
   ------------------------------------------------------------------ -/

/-- find? commutes with a map that does not disturb the search predicate. -/
theorem find?_map_of_pred {α : Type} (p : α → Bool) (g : α → α) (l : List α)
    (hg : ∀ a, p (g a) = p a) :
    (l.map g).find? p = (l.find? p).map g := by
  induction l with
  | nil => rfl
  | cons a t ih =>
    by_cases h : p a = true
    · have hga : p (g a) = true := by rw [hg]; exact h
      simp [List.map_cons, List.find?_cons_of_pos, h, hga]
    · have hga : ¬ p (g a) = true := by rw [hg]; exact h
      rw [List.map_cons, List.find?_cons_of_neg _ hga, List.find?_cons_of_neg _ h, ih]

/-- find? is unchanged by filtering with a predicate implied by the search
predicate. -/
theorem find?_filter_of_imp {α : Type} (p q : α → Bool) (l : List α)
    (h : ∀ a, p a = true → q a = true) :
    (l.filter q).find? p = l.find? p := by
  induction l with
  | nil => rfl
  | cons a t ih =>
    by_cases hpa : p a = true
    · have hqa := h a hpa
      simp [List.filter_cons, hqa, List.find?_cons_of_pos, hpa]
    · by_cases hqa : q a = true
      · rw [List.filter_cons, if_pos hqa, List.find?_cons_of_neg _ hpa,
          List.find?_cons_of_neg _ hpa, ih]
      · rw [List.filter_cons, if_neg hqa, List.find?_cons_of_neg _ hpa, ih]

/-- In a list of players with no duplicate ids, searching for a member's id
finds that member. -/
theorem find?_id_of_nodup (l : List Player) (hnodup : (l.map (·.id)).Nodup)
    (p : Player) (hp : p ∈ l) : l.find? (fun q => q.id == p.id) = some p := by
  induction l with
  | nil => cases hp
  | cons a t ih =>
    rw [List.map_cons, List.nodup_cons] at hnodup
    rcases List.mem_cons.mp hp with rfl | hpt
    · exact List.find?_cons_of_pos _ (by simp)
    · have hne : ¬ (a.id == p.id) = true := by
        intro hbeq
        exact hnodup.1 (beq_iff_eq.mp hbeq ▸ List.mem_map.mpr ⟨p, hpt, rfl⟩)
      have hstep : (a :: t).find? (fun q => q.id == p.id) =
          t.find? (fun q => q.id == p.id) := List.find?_cons_of_neg _ hne
      rw [hstep, ih hnodup.2 hpt]

/-- In a list of players with no duplicate ids, members are determined by
their id. -/
theorem id_inj_of_nodup {l : List Player} (hnodup : (l.map (·.id)).Nodup)
    {p q : Player} (hp : p ∈ l) (hq : q ∈ l) (heq : p.id = q.id) : p = q := by
  induction l with
  | nil => cases hp
  | cons a t ih =>
    rw [List.map_cons, List.nodup_cons] at hnodup
    rcases List.mem_cons.mp hp with rfl | hpt <;> rcases List.mem_cons.mp hq with rfl | hqt
    · rfl
    · exact absurd (heq ▸ List.mem_map.mpr ⟨q, hqt, rfl⟩) hnodup.1
    · exact absurd (heq ▸ List.mem_map.mpr ⟨p, hpt, rfl⟩) hnodup.1
    · exact ih hnodup.2 hpt hqt

/- ------------------------------------------------------------------
   Structural lemmas about the controller operations.
   ------------------------------------------------------------------ -/

/-- Looking up a label among areas from which that label was filtered out
finds nothing. -/
theorem findArea_filter_self (areas : List ConversationArea) (lbl : String) :
    findArea (areas.filter (fun a => a.label != lbl)) lbl = none := by
  rw [findArea, List.find?_eq_none]
  intro a ha
  have := (List.mem_filter.mp ha).2
  simp only [bne_iff_ne, ne_eq] at this
  simp [this]

/-- Filtering out one label leaves lookups of any other label unchanged. -/
theorem findArea_filter_ne (areas : List ConversationArea) (lbl lbl' : String)
    (hne : lbl' ≠ lbl) :
    findArea (areas.filter (fun a => a.label != lbl)) lbl' = findArea areas lbl' := by
  refine find?_filter_of_imp _ _ _ ?_
  intro a ha
  have : a.label = lbl' := beq_iff_eq.mp ha
  simp [this, hne]

/-- A successfully resolved intended label names a live area. -/
theorem intendedArea_isSome (areas : List ConversationArea) (olbl : Option String)
    (lbl : String) (h : intendedArea areas olbl = some lbl) :
    (findArea areas lbl).isSome = true := by
  match olbl with
  | none => simp [intendedArea] at h
  | some l =>
    rw [intendedArea] at h
    split at h
    · rename_i hcond
      rw [Bool.and_eq_true] at hcond
      cases h
      exact hcond.2
    · cases h

/-- updatePlayerLocation commits the new location and the label-resolved
intended area on the player. -/
theorem findPlayer_updatePlayerLocation (st : TownState) (pid : String) (loc : UserLocation)
    (p : Player) (hp : findPlayer st pid = some p) :
    findPlayer (updatePlayerLocation st pid loc).1 pid =
      some { p with location := loc,
                    activeConversationArea :=
                      intendedArea st.conversationAreas loc.conversationLabel } := by
  have h2 : List.find? (fun q => q.id == pid) st.players = some p := hp
  have hpid := List.find?_some h2
  simp only at hpid
  simp only [updatePlayerLocation, hp]
  rw [findPlayer]
  simp only
  rw [find?_map_of_pred]
  · rw [h2]
    rw [Option.map_some']
    rw [if_pos hpid]
  · intro q
    by_cases hq : (q.id == pid) = true
    · simp [hq]
    · simp [hq]

/-- C1: For every known player and every UserLocation passed to
updatePlayerLocation, the player's resulting activeConversationArea is
determined solely by the conversationLabel field: a label naming a live
area yields that area whatever the coordinates are; an absent or empty
label, or one naming a non-existent/destroyed area, yields no area. -/
theorem updatePlayerLocation_respects_conversationLabel
    (st : TownState) (pid : String) (loc : UserLocation) (p : Player)
    (hp : findPlayer st pid = some p) :
    (∃ q, findPlayer (updatePlayerLocation st pid loc).1 pid = some q ∧
        q.activeConversationArea = intendedArea st.conversationAreas loc.conversationLabel) ∧
    (∀ lbl, loc.conversationLabel = some lbl → lbl ≠ "" →
        (findArea st.conversationAreas lbl).isSome = true →
        intendedArea st.conversationAreas loc.conversationLabel = some lbl) ∧
    ((loc.conversationLabel = none ∨ loc.conversationLabel = some "" ∨
        (∀ lbl, loc.conversationLabel = some lbl →
          findArea st.conversationAreas lbl = none)) →
        intendedArea st.conversationAreas loc.conversationLabel = none) ∧
    (∀ loc' : UserLocation, loc'.conversationLabel = loc.conversationLabel →
        ∀ q q', findPlayer (updatePlayerLocation st pid loc).1 pid = some q →
          findPlayer (updatePlayerLocation st pid loc').1 pid = some q' →
          q.activeConversationArea = q'.activeConversationArea) := by
  refine ⟨⟨_, findPlayer_updatePlayerLocation st pid loc p hp, rfl⟩, ?_, ?_, ?_⟩
  · intro lbl hl hne hsome
    rw [hl, intendedArea]
    have hb : (lbl != "") = true := by simpa using hne
    rw [hb, hsome]
    rfl
  · rintro (h | h | h)
    · rw [h]; rfl
    · rw [h]; simp [intendedArea]
    · cases hcl : loc.conversationLabel with
      | none => rfl
      | some lbl =>
        have := h lbl hcl
        simp [intendedArea, this]
  · intro loc' hlab q q' hq hq'
    rw [findPlayer_updatePlayerLocation st pid loc p hp] at hq
    rw [findPlayer_updatePlayerLocation st pid loc' p hp] at hq'
    cases hq
    cases hq'
    simp [hlab]

def c1Area : ConversationArea :=
  { label := "A", topic := "chatting", boundingBox := ⟨10, 10, 5, 5⟩, occupantsByID := [] }

def c1P : Player :=
  { id := "p1", userName := "alice", location := ⟨0, 0, "front", false, none⟩,
    activeConversationArea := none }

def c1St : TownState :=
  { players := [c1P], sessions := [], conversationAreas := [c1Area], listeners := [] }

def c1Loc : UserLocation := ⟨99, 99, "front", false, some "A"⟩

/-- Witness for C1 at a concrete town: one player, one area, a location far
outside the area but labelled with it. -/
theorem updatePlayerLocation_respects_conversationLabel_witness :
    findPlayer c1St "p1" = some c1P ∧
    ((∃ q, findPlayer (updatePlayerLocation c1St "p1" c1Loc).1 "p1" = some q ∧
        q.activeConversationArea = intendedArea c1St.conversationAreas c1Loc.conversationLabel) ∧
    (∀ lbl, c1Loc.conversationLabel = some lbl → lbl ≠ "" →
        (findArea c1St.conversationAreas lbl).isSome = true →
        intendedArea c1St.conversationAreas c1Loc.conversationLabel = some lbl) ∧
    ((c1Loc.conversationLabel = none ∨ c1Loc.conversationLabel = some "" ∨
        (∀ lbl, c1Loc.conversationLabel = some lbl →
          findArea c1St.conversationAreas lbl = none)) →
        intendedArea c1St.conversationAreas c1Loc.conversationLabel = none) ∧
    (∀ loc' : UserLocation, loc'.conversationLabel = c1Loc.conversationLabel →
        ∀ q q', findPlayer (updatePlayerLocation c1St "p1" c1Loc).1 "p1" = some q →
          findPlayer (updatePlayerLocation c1St "p1" loc').1 "p1" = some q' →
          q.activeConversationArea = q'.activeConversationArea)) :=
  ⟨by decide,
   updatePlayerLocation_respects_conversationLabel c1St "p1" c1Loc c1P (by decide)⟩

/-- C5: addConversationArea rejects an area whose topic is NO_TOPIC or whose
label matches a live area: it returns false, leaves the controller state
unchanged, and fires no listener event. -/
theorem addConversationArea_rejects_noTopic_or_duplicate
    (st : TownState) (a : ConversationArea)
    (h : a.topic = NO_TOPIC ∨ ∃ b ∈ st.conversationAreas, b.label = a.label) :
    addConversationArea st a = (false, st, []) := by
  rw [addConversationArea]
  rcases h with h | ⟨b, hb, hlab⟩
  · rw [if_pos (by simpa using h)]
  · by_cases ht : (a.topic == NO_TOPIC) = true
    · rw [if_pos ht]
    · rw [if_neg ht, if_pos]
      exact List.any_eq_true.mpr ⟨b, hb, by simp [hlab]⟩

def c5Area : ConversationArea :=
  { label := "L", topic := NO_TOPIC, boundingBox := ⟨0, 0, 2, 2⟩, occupantsByID := [] }

/-- Witness for C5: a NO_TOPIC area aimed at a concrete town is rejected
without touching the state. -/
theorem addConversationArea_rejects_noTopic_or_duplicate_witness :
    (c5Area.topic = NO_TOPIC ∨ ∃ b ∈ c1St.conversationAreas, b.label = c5Area.label) ∧
    addConversationArea c1St c5Area = (false, c1St, []) :=
  ⟨Or.inl rfl, addConversationArea_rejects_noTopic_or_duplicate c1St c5Area (Or.inl rfl)⟩

def c9AreaA : ConversationArea :=
  { label := "a", topic := "movies", boundingBox := ⟨0, 0, 1, 1⟩, occupantsByID := [] }

def c9AreaB : ConversationArea :=
  { label := "b", topic := "books", boundingBox := ⟨5, 5, 1, 1⟩, occupantsByID := [] }

def c9Inactive : ConversationArea :=
  { label := "x", topic := NO_TOPIC_STRING, boundingBox := ⟨9, 9, 1, 1⟩, occupantsByID := [] }

/-- C9 (code behavior at the failing input): ConversationAreasList renders
exactly the areas whose topic differs from NO_TOPIC_STRING and the
no-active message when none remain, but it renders them in the hook's
order, not sorted by label: on input [b, a] it renders [b, a] where the
documented sort requires [a, b]. -/
theorem conversationAreasList_renders_unsorted :
    ConversationAreasList [c9AreaB, c9AreaA] =
      AreasListView.areaComponents [c9AreaB, c9AreaA] ∧
    ConversationAreasList [c9AreaB, c9AreaA] ≠
      AreasListView.areaComponents [c9AreaA, c9AreaB] ∧
    ConversationAreasList [] = AreasListView.noActiveMessage ∧
    ConversationAreasList [c9Inactive] = AreasListView.noActiveMessage ∧
    ConversationAreasList [c9Inactive, c9AreaB, c9AreaA] =
      AreasListView.areaComponents [c9AreaB, c9AreaA] := by
  refine ⟨by decide, by decide, by decide, by decide, by decide⟩

/-- C10: the conversation-area component registers exactly one
onOccupantsChange listener on mount, removes that same listener on
unmount, and its listener leaves the displayed occupants unchanged when
invoked with the undefined destruction signal (while a defined payload
replaces them). -/
theorem convoAreaComponent_listener_lifecycle
    (listeners occ : List String) (lid : String) (hfresh : lid ∉ listeners) :
    mountConvoAreaComponent listeners lid = listeners ++ [lid] ∧
    unmountConvoAreaComponent (mountConvoAreaComponent listeners lid) lid = listeners ∧
    onOccupantsChangeListener occ none = occ ∧
    (∀ newOcc, onOccupantsChangeListener occ (some newOcc) = newOcc) := by
  refine ⟨rfl, ?_, rfl, fun _ => rfl⟩
  rw [mountConvoAreaComponent, unmountConvoAreaComponent, addAreaListener,
    removeAreaListener, List.filter_append]
  have h1 : listeners.filter (fun l => l != lid) = listeners := by
    refine List.filter_eq_self.mpr ?_
    intro a ha
    simp only [bne_iff_ne, ne_eq]
    intro heq
    exact hfresh (heq ▸ ha)
  rw [h1]
  simp

/-- Witness for C10 at concrete lists. -/
theorem convoAreaComponent_listener_lifecycle_witness :
    ("lid1" ∉ (["a", "b"] : List String)) ∧
    (mountConvoAreaComponent ["a", "b"] "lid1" = ["a", "b"] ++ ["lid1"] ∧
     unmountConvoAreaComponent (mountConvoAreaComponent ["a", "b"] "lid1") "lid1" = ["a", "b"] ∧
     onOccupantsChangeListener ["p1"] none = ["p1"] ∧
     (∀ newOcc, onOccupantsChangeListener ["p1"] (some newOcc) = newOcc)) :=
  ⟨by decide, convoAreaComponent_listener_lifecycle ["a", "b"] ["p1"] "lid1" (by decide)⟩

/-- Every event fired by the occupant-removal path concerns an area. -/
theorem removeOccupant_events (areas : List ConversationArea) (lbl pid : String) :
    ∀ e ∈ (removeOccupant areas lbl pid).2,
      (∃ l, e = TownEvent.conversationAreaUpdated l) ∨
      (∃ l, e = TownEvent.conversationAreaDestroyed l) := by
  intro e he
  rw [removeOccupant] at he
  cases hfa : findArea areas lbl with
  | none => rw [hfa] at he; simp at he
  | some old =>
    rw [hfa] at he
    simp only at he
    split at he
    · simp at he; exact Or.inr ⟨lbl, he⟩
    · simp at he; exact Or.inl ⟨lbl, he⟩

/-- Every event fired by the occupant-addition path concerns an area. -/
theorem addOccupant_events (areas : List ConversationArea) (lbl pid : String) :
    ∀ e ∈ (addOccupant areas lbl pid).2,
      (∃ l, e = TownEvent.conversationAreaUpdated l) ∨
      (∃ l, e = TownEvent.conversationAreaDestroyed l) := by
  intro e he
  rw [addOccupant] at he
  cases hfa : findArea areas lbl with
  | none => rw [hfa] at he; simp at he
  | some old =>
    rw [hfa] at he
    simp at he
    exact Or.inl ⟨lbl, he⟩

/-- Every event fired by the transition step concerns an area (updated or
destroyed); onPlayerMoved is not among them. -/
theorem transitionAreas_events (areas : List ConversationArea) (pid : String)
    (current intended : Option String) :
    ∀ e ∈ (transitionAreas areas pid current intended).2,
      (∃ l, e = TownEvent.conversationAreaUpdated l) ∨
      (∃ l, e = TownEvent.conversationAreaDestroyed l) := by
  intro e he
  rw [transitionAreas.eq_def] at he
  split at he
  · simp at he
  · cases current with
    | none =>
      cases intended with
      | none => simp at he
      | some newLbl =>
        simp only [List.nil_append] at he
        exact addOccupant_events _ _ _ e he
    | some oldLbl =>
      cases intended with
      | none => exact removeOccupant_events _ _ _ e he
      | some newLbl =>
        simp only at he
        rcases List.mem_append.mp he with h | h
        · exact removeOccupant_events _ _ _ e h
        · exact addOccupant_events _ _ _ e h

/-- C6: within a single updatePlayerLocation call the batch of notifications
consists of area-updated / area-destroyed events followed by the single
onPlayerMoved notification, so every area notification precedes
onPlayerMoved. -/
theorem updatePlayerLocation_area_events_precede_playerMoved
    (st : TownState) (pid : String) (loc : UserLocation) (p : Player)
    (hp : findPlayer st pid = some p) :
    ∃ pre, (updatePlayerLocation st pid loc).2 = pre ++ [TownEvent.playerMoved pid] ∧
      ∀ e ∈ pre,
        (∃ l, e = TownEvent.conversationAreaUpdated l) ∨
        (∃ l, e = TownEvent.conversationAreaDestroyed l) := by
  refine ⟨(transitionAreas st.conversationAreas pid p.activeConversationArea
      (intendedArea st.conversationAreas loc.conversationLabel)).2, ?_,
      transitionAreas_events _ _ _ _⟩
  simp only [updatePlayerLocation, hp]

/-- Witness for C6 at the concrete one-player town: the update that walks
the player into area A fires its area event before onPlayerMoved. -/
theorem updatePlayerLocation_area_events_precede_playerMoved_witness :
    findPlayer c1St "p1" = some c1P ∧
    (∃ pre, (updatePlayerLocation c1St "p1" c1Loc).2 =
        pre ++ [TownEvent.playerMoved "p1"] ∧
      ∀ e ∈ pre,
        (∃ l, e = TownEvent.conversationAreaUpdated l) ∨
        (∃ l, e = TownEvent.conversationAreaDestroyed l)) :=
  ⟨by decide,
   updatePlayerLocation_area_events_precede_playerMoved c1St "p1" c1Loc c1P (by decide)⟩

/-- Deleting the sole occupant destroys the area: it is filtered out of the
area list and onConversationAreaDestroyed fires. -/
theorem removeOccupant_sole (areas : List ConversationArea) (lbl pid : String)
    (old : ConversationArea) (h : findArea areas lbl = some old)
    (hsole : old.occupantsByID = [pid]) :
    removeOccupant areas lbl pid =
      (areas.filter (fun a => a.label != lbl),
       [TownEvent.conversationAreaDestroyed lbl]) := by
  rw [removeOccupant, h]
  simp [hsole]

/-- addOccupant on a live label maps the append-or-keep update over the
area list and fires onConversationAreaUpdated. -/
theorem addOccupant_found (areas : List ConversationArea) (lbl pid : String)
    (na : ConversationArea) (h : findArea areas lbl = some na) :
    addOccupant areas lbl pid =
      (areas.map (fun a =>
          if a.label == lbl then
            { a with occupantsByID :=
                if a.occupantsByID.contains pid then a.occupantsByID
                else a.occupantsByID ++ [pid] }
          else a),
       [TownEvent.conversationAreaUpdated lbl]) := by
  rw [addOccupant, h]

/-- Area lookup commutes with a label-preserving map over the area list. -/
theorem findArea_map_label_preserving (areas : List ConversationArea)
    (g : ConversationArea → ConversationArea) (hg : ∀ a, (g a).label = a.label)
    (lbl : String) :
    findArea (areas.map g) lbl = (findArea areas lbl).map g := by
  refine find?_map_of_pred _ _ _ ?_
  intro a
  simp [hg]

section C2Scenario

/-- Scenario of the transition test: area `old` at (10,10,5x5). -/
def c2Old : ConversationArea :=
  { label := "old", topic := "topicA", boundingBox := ⟨10, 10, 5, 5⟩, occupantsByID := [] }

/-- Scenario: area `new` at (25,25,5x5). -/
def c2New : ConversationArea :=
  { label := "new", topic := "topicB", boundingBox := ⟨25, 25, 5, 5⟩, occupantsByID := [] }

/-- Scenario: the single player, created at the origin with no active area. -/
def c2P : Player :=
  { id := "p1", userName := "bob", location := ⟨0, 0, "front", false, none⟩,
    activeConversationArea := none }

/-- Scenario: town state after creating `old` and adding the player (the
listener of the source test is registered at this point). -/
def c2St2 : TownState :=
  (addPlayer (addConversationArea ⟨[], [], [], []⟩ c2Old).2.1 c2P "tok").1

/-- Scenario: the player walks into `old` (label old, position (9,9)). -/
def c2Step3 : TownState × List TownEvent :=
  updatePlayerLocation c2St2 "p1" ⟨9, 9, "front", false, some "old"⟩

/-- Scenario: area `new` is created. -/
def c2Step4 : Bool × TownState × List TownEvent :=
  addConversationArea c2Step3.1 c2New

/-- Scenario: the player transitions to `new` (label new, position (24,24)),
emptying and thereby destroying `old`. -/
def c2Step5 : TownState × List TownEvent :=
  updatePlayerLocation c2Step4.2.1 "p1" ⟨24, 24, "front", false, some "new"⟩

/-- Scenario: the events observed by the listener registered after the
creation of `old`, exactly as in the source test. -/
def c2Events : List TownEvent := c2Step3.2 ++ c2Step4.2.2 ++ c2Step5.2

end C2Scenario

/-- C2: moving the sole occupant of area old to area new destroys old
(removed from the area list, onConversationAreaDestroyed exactly once,
followed by onConversationAreaUpdated for new and onPlayerMoved), and new
then contains the player; in the concrete four-step scenario of the source
test the registered listener sees onConversationAreaUpdated three times
and onConversationAreaDestroyed once. -/
theorem updatePlayerLocation_sole_occupant_destroys_old
    (st : TownState) (pid oldLbl newLbl : String) (loc : UserLocation)
    (p : Player) (old : ConversationArea)
    (hp : findPlayer st pid = some p)
    (hact : p.activeConversationArea = some oldLbl)
    (hold : findArea st.conversationAreas oldLbl = some old)
    (hsole : old.occupantsByID = [pid])
    (hint : intendedArea st.conversationAreas loc.conversationLabel = some newLbl)
    (hne : newLbl ≠ oldLbl) :
    (findArea (updatePlayerLocation st pid loc).1.conversationAreas oldLbl = none ∧
     (updatePlayerLocation st pid loc).2 =
       [TownEvent.conversationAreaDestroyed oldLbl,
        TownEvent.conversationAreaUpdated newLbl,
        TownEvent.playerMoved pid] ∧
     (∃ na, findArea (updatePlayerLocation st pid loc).1.conversationAreas newLbl = some na ∧
        pid ∈ na.occupantsByID)) ∧
    (countDestroyed c2Events = 1 ∧ countUpdated c2Events = 3 ∧
     findArea c2Step5.1.conversationAreas "old" = none ∧
     (findArea c2Step5.1.conversationAreas "new").map (fun a => a.occupantsByID) =
       some ["p1"]) := by
  have hnsome : (findArea st.conversationAreas newLbl).isSome = true :=
    intendedArea_isSome _ _ _ hint
  obtain ⟨na, hna⟩ := Option.isSome_iff_exists.mp hnsome
  have hfn : findArea (st.conversationAreas.filter (fun a => a.label != oldLbl)) newLbl =
      some na := by
    rw [findArea_filter_ne _ _ _ hne]
    exact hna
  have hna' : List.find? (fun a => a.label == newLbl) st.conversationAreas = some na := hna
  have hnalbl := List.find?_some hna'
  simp only at hnalbl
  have htrans : transitionAreas st.conversationAreas pid (some oldLbl) (some newLbl) =
      ((st.conversationAreas.filter (fun a => a.label != oldLbl)).map (fun a =>
          if a.label == newLbl then
            { a with occupantsByID :=
                if a.occupantsByID.contains pid then a.occupantsByID
                else a.occupantsByID ++ [pid] }
          else a),
       [TownEvent.conversationAreaDestroyed oldLbl,
        TownEvent.conversationAreaUpdated newLbl]) := by
    rw [transitionAreas.eq_def]
    rw [if_neg (by simpa using hne)]
    simp only
    rw [removeOccupant_sole _ _ _ _ hold hsole]
    rw [addOccupant_found _ _ _ _ hfn]
    rfl
  constructor
  · simp only [updatePlayerLocation, hp, hact, hint, htrans]
    refine ⟨?_, rfl, ?_⟩
    · rw [findArea_map_label_preserving]
      · rw [findArea_filter_self]
        rfl
      · intro a
        split <;> rfl
    · refine ⟨{ na with occupantsByID :=
          if na.occupantsByID.contains pid then na.occupantsByID
          else na.occupantsByID ++ [pid] }, ?_, ?_⟩
      · rw [findArea_map_label_preserving]
        · rw [hfn, Option.map_some', if_pos hnalbl]
        · intro a
          split <;> rfl
      · by_cases hc : na.occupantsByID.contains pid = true
        · simp only [if_pos hc]
          simpa using hc
        · simp only [if_neg hc]
          simp
  · refine ⟨by decide, by decide, by decide, by decide⟩

/-- Scenario: the player as of the transition step (inside old, label old). -/
def c2PMid : Player :=
  { id := "p1", userName := "bob", location := ⟨9, 9, "front", false, some "old"⟩,
    activeConversationArea := some "old" }

/-- Scenario: area old while holding its sole occupant. -/
def c2OldMid : ConversationArea :=
  { label := "old", topic := "topicA", boundingBox := ⟨10, 10, 5, 5⟩,
    occupantsByID := ["p1"] }

/-- Scenario: the transition location (label new, position (24,24)). -/
def c2Loc2 : UserLocation := ⟨24, 24, "front", false, some "new"⟩

/-- Witness for C2 at the scenario's transition step. -/
theorem updatePlayerLocation_sole_occupant_destroys_old_witness :
    (findPlayer c2Step4.2.1 "p1" = some c2PMid ∧
     c2PMid.activeConversationArea = some "old" ∧
     findArea c2Step4.2.1.conversationAreas "old" = some c2OldMid ∧
     c2OldMid.occupantsByID = ["p1"] ∧
     intendedArea c2Step4.2.1.conversationAreas c2Loc2.conversationLabel = some "new" ∧
     "new" ≠ "old") ∧
    ((findArea (updatePlayerLocation c2Step4.2.1 "p1" c2Loc2).1.conversationAreas "old" = none ∧
      (updatePlayerLocation c2Step4.2.1 "p1" c2Loc2).2 =
        [TownEvent.conversationAreaDestroyed "old",
         TownEvent.conversationAreaUpdated "new",
         TownEvent.playerMoved "p1"] ∧
      (∃ na, findArea (updatePlayerLocation c2Step4.2.1 "p1" c2Loc2).1.conversationAreas "new" =
          some na ∧ "p1" ∈ na.occupantsByID)) ∧
     (countDestroyed c2Events = 1 ∧ countUpdated c2Events = 3 ∧
      findArea c2Step5.1.conversationAreas "old" = none ∧
      (findArea c2Step5.1.conversationAreas "new").map (fun a => a.occupantsByID) =
        some ["p1"])) :=
  ⟨⟨by decide, by decide, by decide, by decide, by decide, by decide⟩,
   updatePlayerLocation_sole_occupant_destroys_old c2Step4.2.1 "p1" "old" "new" c2Loc2
     c2PMid c2OldMid (by decide) (by decide) (by decide) (by decide) (by decide)
     (by decide)⟩

/-- A point on the boundary of the bounding rectangle is never strictly
inside the open rectangle. -/
theorem onBoundary_not_strictlyInside (b : BoundingBox) (px py : Int)
    (h : onBoundary b px py = true) : strictlyInside b px py = false := by
  rw [Bool.eq_false_iff]
  intro hs
  rw [strictlyInside] at hs
  simp only [Bool.and_eq_true, decide_eq_true_eq] at hs
  rw [onBoundary] at h
  simp only [Bool.or_eq_true, Bool.and_eq_true, beq_iff_eq, decide_eq_true_eq] at h
  omega

/-- C3: after a successful addConversationArea, the installed area's
occupants are exactly the ids of the players strictly inside the open
bounding rectangle whose active area was absent; each such player is
enrolled and switched to the new area, and a player sitting exactly on the
rectangle's boundary is never enrolled. -/
theorem addConversationArea_enrolls_strictly_inside
    (st : TownState) (a : ConversationArea) (st' : TownState) (evts : List TownEvent)
    (h : addConversationArea st a = (true, st', evts))
    (hnodup : (st.players.map (·.id)).Nodup) :
    ∃ a', findArea st'.conversationAreas a.label = some a' ∧
      a'.occupantsByID = (st.players.filter (enrolledOnCreate a)).map (·.id) ∧
      (∀ p ∈ st.players,
        strictlyInside a.boundingBox p.location.x p.location.y = true →
        p.activeConversationArea = none →
        p.id ∈ a'.occupantsByID ∧
        (∃ q, findPlayer st' p.id = some q ∧ q.activeConversationArea = some a.label)) ∧
      (∀ p ∈ st.players,
        onBoundary a.boundingBox p.location.x p.location.y = true →
        p.id ∉ a'.occupantsByID) := by
  rw [addConversationArea] at h
  split at h
  · simp at h
  · split at h
    · simp at h
    · split at h
      · simp at h
      · rename_i htopic hlbl hoverlap
        simp only [Prod.mk.injEq] at h
        obtain ⟨-, hst, hev⟩ := h
        subst hst
        have hfindnone : st.conversationAreas.find? (fun b => b.label == a.label) = none := by
          rw [List.find?_eq_none]
          intro b hb hbeq
          exact hlbl (List.any_eq_true.mpr ⟨b, hb, hbeq⟩)
        have hfind : findArea (st.conversationAreas ++
            [{ a with occupantsByID := (st.players.filter (enrolledOnCreate a)).map (·.id) }])
            a.label =
            some { a with occupantsByID :=
              (st.players.filter (enrolledOnCreate a)).map (·.id) } := by
          rw [findArea, List.find?_append, hfindnone]
          simp
        refine ⟨_, hfind, rfl, ?_, ?_⟩
        · intro p hp hin hact
          have hen : enrolledOnCreate a p = true := by
            rw [enrolledOnCreate, hin, hact]
            rfl
          constructor
          · exact List.mem_map.mpr ⟨p, List.mem_filter.mpr ⟨hp, hen⟩, rfl⟩
          · refine ⟨{ p with activeConversationArea := some a.label }, ?_, rfl⟩
            rw [findPlayer]
            simp only
            rw [find?_map_of_pred]
            · rw [find?_id_of_nodup st.players hnodup p hp, Option.map_some', if_pos hen]
            · intro q
              split <;> rfl
        · intro p hp hb hmem
          have hnotin := onBoundary_not_strictlyInside a.boundingBox p.location.x p.location.y hb
          obtain ⟨p', hp'mem, hp'id⟩ := List.mem_map.mp hmem
          have hp'in := List.mem_filter.mp hp'mem
          have hpp : p' = p := id_inj_of_nodup hnodup hp'in.1 hp hp'id
          have hen' := hp'in.2
          rw [hpp, enrolledOnCreate, hnotin] at hen'
          simp at hen'

section C3Scenario

/-- Scenario: the new area, centered at the origin with a 2x2 box whose
open rectangle is (-1,1) x (-1,1). -/
def c3Area : ConversationArea :=
  { label := "E", topic := "games", boundingBox := ⟨0, 0, 2, 2⟩, occupantsByID := [] }

/-- Scenario: a player at the center, in no area. -/
def c3PIn : Player :=
  { id := "in1", userName := "carol", location := ⟨0, 0, "front", false, none⟩,
    activeConversationArea := none }

/-- Scenario: a player exactly on the right edge x = 1 of the closed box. -/
def c3PBd : Player :=
  { id := "bd1", userName := "dave", location := ⟨1, 0, "front", false, none⟩,
    activeConversationArea := none }

/-- Scenario: the town holding both players and no areas. -/
def c3St : TownState :=
  { players := [c3PIn, c3PBd], sessions := [], conversationAreas := [], listeners := [] }

/-- Scenario: the state after installing the area. -/
def c3StAfter : TownState := (addConversationArea c3St c3Area).2.1

/-- Scenario: the events of the creation. -/
def c3Evts : List TownEvent := (addConversationArea c3St c3Area).2.2

end C3Scenario

/-- Witness for C3: the center player is enrolled, the edge player is not. -/
theorem addConversationArea_enrolls_strictly_inside_witness :
    (addConversationArea c3St c3Area = (true, c3StAfter, c3Evts) ∧
     (c3St.players.map (·.id)).Nodup) ∧
    (∃ a', findArea c3StAfter.conversationAreas c3Area.label = some a' ∧
      a'.occupantsByID = (c3St.players.filter (enrolledOnCreate c3Area)).map (·.id) ∧
      (∀ p ∈ c3St.players,
        strictlyInside c3Area.boundingBox p.location.x p.location.y = true →
        p.activeConversationArea = none →
        p.id ∈ a'.occupantsByID ∧
        (∃ q, findPlayer c3StAfter p.id = some q ∧
          q.activeConversationArea = some c3Area.label)) ∧
      (∀ p ∈ c3St.players,
        onBoundary c3Area.boundingBox p.location.x p.location.y = true →
        p.id ∉ a'.occupantsByID)) :=
  ⟨⟨by decide, by decide⟩,
   addConversationArea_enrolls_strictly_inside c3St c3Area c3StAfter c3Evts
     (by decide) (by decide)⟩

/-- The rational point `(qx, qy)` lies in the open rectangle of box `b`. -/
def inOpenBox (b : BoundingBox) (qx qy : ℚ) : Prop :=
  (b.x : ℚ) - (b.width : ℚ) / 2 < qx ∧ qx < (b.x : ℚ) + (b.width : ℚ) / 2 ∧
  (b.y : ℚ) - (b.height : ℚ) / 2 < qy ∧ qy < (b.y : ℚ) + (b.height : ℚ) / 2

/-- Two non-degenerate open intervals intersect exactly when each lower
bound is below the other upper bound. -/
theorem open_interval_overlap (lo1 hi1 lo2 hi2 : ℚ) (h1 : lo1 < hi1) (h2 : lo2 < hi2) :
    (lo1 < hi2 ∧ lo2 < hi1) ↔ ∃ q, (lo1 < q ∧ q < hi1) ∧ (lo2 < q ∧ q < hi2) := by
  constructor
  · rintro ⟨ha, hb⟩
    refine ⟨(max lo1 lo2 + min hi1 hi2) / 2, ?_⟩
    have hmax : max lo1 lo2 < min hi1 hi2 := by
      rcases max_cases lo1 lo2 with ⟨hm, hmle⟩ | ⟨hm, hmlt⟩ <;>
        rcases min_cases hi1 hi2 with ⟨hn, hnle⟩ | ⟨hn, hnlt⟩ <;> rw [hm, hn] <;> linarith
    have l1 := le_max_left lo1 lo2
    have l2 := le_max_right lo1 lo2
    have r1 := min_le_left hi1 hi2
    have r2 := min_le_right hi1 hi2
    exact ⟨⟨by linarith, by linarith⟩, by linarith, by linarith⟩
  · rintro ⟨q, ⟨hA1, hA2⟩, hB1, hB2⟩
    exact ⟨by linarith, by linarith⟩

/-- boxesOverlap agrees with non-emptiness of the intersection of the two
open rectangles over the rationals (for boxes of positive extent). -/
theorem boxesOverlap_iff_nonempty_intersection (a b : BoundingBox)
    (ha1 : 0 < a.width) (ha2 : 0 < a.height) (hb1 : 0 < b.width) (hb2 : 0 < b.height) :
    boxesOverlap a b = true ↔ ∃ qx qy : ℚ, inOpenBox a qx qy ∧ inOpenBox b qx qy := by
  have haw : (0:ℚ) < (a.width : ℚ) := by exact_mod_cast ha1
  have hah : (0:ℚ) < (a.height : ℚ) := by exact_mod_cast ha2
  have hbw : (0:ℚ) < (b.width : ℚ) := by exact_mod_cast hb1
  have hbh : (0:ℚ) < (b.height : ℚ) := by exact_mod_cast hb2
  rw [boxesOverlap]
  simp only [Bool.and_eq_true, decide_eq_true_eq]
  constructor
  · rintro ⟨⟨⟨h1, h2⟩, h3⟩, h4⟩
    have q1 : (2:ℚ) * a.x - a.width < 2 * b.x + b.width := by exact_mod_cast h1
    have q2 : (2:ℚ) * b.x - b.width < 2 * a.x + a.width := by exact_mod_cast h2
    have q3 : (2:ℚ) * a.y - a.height < 2 * b.y + b.height := by exact_mod_cast h3
    have q4 : (2:ℚ) * b.y - b.height < 2 * a.y + a.height := by exact_mod_cast h4
    obtain ⟨qx, ⟨hx1, hx2⟩, hx3, hx4⟩ :=
      (open_interval_overlap ((a.x:ℚ) - (a.width:ℚ)/2) ((a.x:ℚ) + (a.width:ℚ)/2)
        ((b.x:ℚ) - (b.width:ℚ)/2) ((b.x:ℚ) + (b.width:ℚ)/2)
        (by linarith) (by linarith)).mp ⟨by linarith, by linarith⟩
    obtain ⟨qy, ⟨hy1, hy2⟩, hy3, hy4⟩ :=
      (open_interval_overlap ((a.y:ℚ) - (a.height:ℚ)/2) ((a.y:ℚ) + (a.height:ℚ)/2)
        ((b.y:ℚ) - (b.height:ℚ)/2) ((b.y:ℚ) + (b.height:ℚ)/2)
        (by linarith) (by linarith)).mp ⟨by linarith, by linarith⟩
    exact ⟨qx, qy, ⟨hx1, hx2, hy1, hy2⟩, hx3, hx4, hy3, hy4⟩
  · rintro ⟨qx, qy, ⟨hx1, hx2, hy1, hy2⟩, hx3, hx4, hy3, hy4⟩
    refine ⟨⟨⟨?_, ?_⟩, ?_⟩, ?_⟩
    · have : (2:ℚ) * a.x - a.width < 2 * b.x + b.width := by linarith
      exact_mod_cast this
    · have : (2:ℚ) * b.x - b.width < 2 * a.x + a.width := by linarith
      exact_mod_cast this
    · have : (2:ℚ) * a.y - a.height < 2 * b.y + b.height := by linarith
      exact_mod_cast this
    · have : (2:ℚ) * b.y - b.height < 2 * a.y + a.height := by linarith
      exact_mod_cast this

section C4Scenario

/-- Scenario: area A1 with box (10,10) 10x10 (open rect (5,15) x (5,15)). -/
def c4A1 : ConversationArea :=
  { label := "A1", topic := "t1", boundingBox := ⟨10, 10, 10, 10⟩, occupantsByID := [] }

/-- Scenario: area A2 with box (20,10) width 10 height 15; its open rect
starts at x = 15, sharing only the line x = 15 with A1. -/
def c4A2 : ConversationArea :=
  { label := "A2", topic := "t2", boundingBox := ⟨20, 10, 10, 15⟩, occupantsByID := [] }

/-- Scenario: town after accepting A1. -/
def c4St1 : TownState := (addConversationArea ⟨[], [], [], []⟩ c4A1).2.1

/-- Scenario: town after accepting A2 next to A1. -/
def c4St2 : TownState := (addConversationArea c4St1 c4A2).2.1

/-- Scenario: area B1 with box (10,10) 5x5. -/
def c4B1 : ConversationArea :=
  { label := "B1", topic := "t3", boundingBox := ⟨10, 10, 5, 5⟩, occupantsByID := [] }

/-- Scenario: area B2 with box (9,10) 5x5, overlapping B1. -/
def c4B2 : ConversationArea :=
  { label := "B2", topic := "t4", boundingBox := ⟨9, 10, 5, 5⟩, occupantsByID := [] }

/-- Scenario: town holding B1. -/
def c4StB1 : TownState := (addConversationArea ⟨[], [], [], []⟩ c4B1).2.1

end C4Scenario

/-- C4: overlap means non-empty intersection of the open rectangles:
addConversationArea returns false whenever the new box overlaps a live
area's box, succeeds when no live box overlaps (given a fresh label and a
real topic), boxesOverlap coincides with rational open-rectangle
intersection, and on the concrete scenarios the edge-adjacent pair A1/A2
is accepted while the overlapping pair B1/B2 is rejected. -/
theorem addConversationArea_overlap_semantics
    (st : TownState) (a : ConversationArea) :
    ((∃ b ∈ st.conversationAreas, boxesOverlap a.boundingBox b.boundingBox = true) →
       (addConversationArea st a).1 = false) ∧
    (a.topic ≠ NO_TOPIC →
     (∀ b ∈ st.conversationAreas, ¬ b.label = a.label) →
     (∀ b ∈ st.conversationAreas, boxesOverlap a.boundingBox b.boundingBox = false) →
       (addConversationArea st a).1 = true ∧
       ∃ a', findArea (addConversationArea st a).2.1.conversationAreas a.label = some a') ∧
    (∀ b1 b2 : BoundingBox, 0 < b1.width → 0 < b1.height → 0 < b2.width → 0 < b2.height →
       (boxesOverlap b1 b2 = true ↔ ∃ qx qy : ℚ, inOpenBox b1 qx qy ∧ inOpenBox b2 qx qy)) ∧
    ((addConversationArea ⟨[], [], [], []⟩ c4A1).1 = true ∧
     (addConversationArea c4St1 c4A2).1 = true ∧
     c4St2.conversationAreas.map (fun x => x.label) = ["A1", "A2"] ∧
     (addConversationArea c4StB1 c4B2).1 = false ∧
     (addConversationArea c4StB1 c4B2).2.1 = c4StB1) := by
  refine ⟨?_, ?_, ?_, by decide, by decide, by decide, by decide, by decide⟩
  · rintro ⟨b, hb, hov⟩
    rw [addConversationArea]
    split
    · rfl
    · split
      · rfl
      · split
        · rfl
        · rename_i hno
          exact absurd (List.any_eq_true.mpr ⟨b, hb, hov⟩) hno
  · intro ht hl hov
    rw [addConversationArea]
    rw [if_neg (by simpa using ht), if_neg, if_neg]
    · refine ⟨rfl, { a with occupantsByID :=
          (st.players.filter (enrolledOnCreate a)).map (·.id) }, ?_⟩
      rw [findArea, List.find?_append]
      have h1 : st.conversationAreas.find? (fun b => b.label == a.label) = none := by
        rw [List.find?_eq_none]
        intro b hb hbeq
        exact hl b hb (beq_iff_eq.mp hbeq)
      rw [h1]
      simp
    · intro hc
      obtain ⟨b, hb, hbov⟩ := List.any_eq_true.mp hc
      rw [hov b hb] at hbov
      cases hbov
    · intro hc
      obtain ⟨b, hb, hbeq⟩ := List.any_eq_true.mp hc
      exact hl b hb (beq_iff_eq.mp hbeq)
  · intro b1 b2 h1 h2 h3 h4
    exact boxesOverlap_iff_nonempty_intersection b1 b2 h1 h2 h3 h4

/-- Witness for C4: B2 overlaps the live B1, so it is rejected. -/
theorem addConversationArea_overlap_semantics_witness :
    (∃ b ∈ c4StB1.conversationAreas, boxesOverlap c4B2.boundingBox b.boundingBox = true) ∧
    (addConversationArea c4StB1 c4B2).1 = false :=
  ⟨by decide, (addConversationArea_overlap_semantics c4StB1 c4B2).1 (by decide)⟩

/-- Deleting a non-last occupant keeps the area, with the occupant list
shrunk and onConversationAreaUpdated fired. -/
theorem removeOccupant_nonempty (areas : List ConversationArea) (lbl pid : String)
    (old : ConversationArea) (h : findArea areas lbl = some old)
    (hrem : old.occupantsByID.filter (fun i => i != pid) ≠ []) :
    removeOccupant areas lbl pid =
      (areas.map (fun a => if a.label == lbl then
          { a with occupantsByID := old.occupantsByID.filter (fun i => i != pid) } else a),
       [TownEvent.conversationAreaUpdated lbl]) := by
  rw [removeOccupant, h]
  simp only
  rw [if_neg]
  simpa [List.isEmpty_iff] using hrem

/-- C7: destroying the session of a player who occupies an area removes the
player from players, removes the session, and deletes the player's id from
the area's occupants; a sole occupant's departure destroys the area, and
otherwise the surviving area no longer lists the player. -/
theorem destroySession_evicts_player
    (st : TownState) (token lbl : String) (sess : PlayerSession) (p : Player)
    (area : ConversationArea)
    (hs : st.sessions.find? (fun s => s.sessionToken == token) = some sess)
    (hp : findPlayer st sess.playerID = some p)
    (hact : p.activeConversationArea = some lbl)
    (harea : findArea st.conversationAreas lbl = some area) :
    (∀ q ∈ (destroySession st token).1.players, q.id ≠ p.id) ∧
    (∀ s ∈ (destroySession st token).1.sessions, s.sessionToken ≠ token) ∧
    (area.occupantsByID = [p.id] →
       findArea (destroySession st token).1.conversationAreas lbl = none) ∧
    (area.occupantsByID.filter (fun i => i != p.id) ≠ [] →
       ∃ a', findArea (destroySession st token).1.conversationAreas lbl = some a' ∧
         p.id ∉ a'.occupantsByID) := by
  have halbl : List.find? (fun a => a.label == lbl) st.conversationAreas = some area := harea
  have halbl2 := List.find?_some halbl
  simp only at halbl2
  rw [destroySession, hs]
  simp only
  rw [hp]
  simp only
  rw [hact]
  simp only
  refine ⟨?_, ?_, ?_, ?_⟩
  · intro q hq
    have := (List.mem_filter.mp hq).2
    simpa using this
  · intro s hsmem
    have := (List.mem_filter.mp hsmem).2
    simpa using this
  · intro hsole
    rw [removeOccupant_sole _ _ _ _ harea hsole]
    exact findArea_filter_self _ _
  · intro hrem
    rw [removeOccupant_nonempty _ _ _ _ harea hrem]
    refine ⟨{ area with occupantsByID :=
        area.occupantsByID.filter (fun i => i != p.id) }, ?_, ?_⟩
    · rw [findArea_map_label_preserving]
      · rw [harea, Option.map_some', if_pos halbl2]
      · intro a
        split <;> rfl
    · intro hmem
      have := (List.mem_filter.mp hmem).2
      simp at this

/-- Witness for C7 at the scenario state: destroying the sole occupant's
session destroys area old. -/
theorem destroySession_evicts_player_witness :
    (c2Step4.2.1.sessions.find? (fun s => s.sessionToken == "tok") =
       some { sessionToken := "tok", playerID := "p1" } ∧
     findPlayer c2Step4.2.1 "p1" = some c2PMid ∧
     c2PMid.activeConversationArea = some "old" ∧
     findArea c2Step4.2.1.conversationAreas "old" = some c2OldMid) ∧
    ((∀ q ∈ (destroySession c2Step4.2.1 "tok").1.players, q.id ≠ c2PMid.id) ∧
     (∀ s ∈ (destroySession c2Step4.2.1 "tok").1.sessions, s.sessionToken ≠ "tok") ∧
     (c2OldMid.occupantsByID = [c2PMid.id] →
        findArea (destroySession c2Step4.2.1 "tok").1.conversationAreas "old" = none) ∧
     (c2OldMid.occupantsByID.filter (fun i => i != c2PMid.id) ≠ [] →
        ∃ a', findArea (destroySession c2Step4.2.1 "tok").1.conversationAreas "old" =
            some a' ∧ c2PMid.id ∉ a'.occupantsByID)) :=
  ⟨⟨by decide, by decide, by decide, by decide⟩,
   destroySession_evicts_player c2Step4.2.1 "tok" "old"
     { sessionToken := "tok", playerID := "p1" } c2PMid c2OldMid
     (by decide) (by decide) (by decide) (by decide)⟩

/-- Overwriting a registered town and looking up the same id yields the new
controller state. -/
theorem lookupTown_setTown_self (store : TownStore) (tid : String) (stNew : TownState)
    (town : TownState) (h : lookupTown store tid = some town) :
    lookupTown (setTown store tid stNew) tid = some stNew := by
  rw [lookupTown, setTown]
  simp only
  rw [find?_map_of_pred]
  · rw [lookupTown] at h
    cases hf : store.towns.find? (fun t => t.1 == tid) with
    | none => rw [hf] at h; cases h
    | some pr =>
      have hpr := List.find?_some hf
      simp only at hpr
      simp [beq_iff_eq.mp hpr]
  · intro t
    split <;> rfl

/-- destroySession always restricts the session list to the other tokens
and never touches the listener list (once the token is registered). -/
theorem destroySession_shape (st : TownState) (token : String) (sess : PlayerSession)
    (h : st.sessions.find? (fun s => s.sessionToken == token) = some sess) :
    (destroySession st token).1.sessions =
      st.sessions.filter (fun s => s.sessionToken != token) ∧
    (destroySession st token).1.listeners = st.listeners := by
  rw [destroySession, h]
  simp only
  cases hp : findPlayer st sess.playerID with
  | none => exact ⟨rfl, rfl⟩
  | some p => exact ⟨rfl, rfl⟩

/-- C8: the subscription handler disconnects with reason true on an unknown
townID or a sessionToken unknown to that town; and after an accepted
socket's disconnect event runs, the bridging listener is deregistered (so
event dispatch never reaches it), and the same (townID, sessionToken) is
rejected on a second subscription attempt because the backing session was
destroyed. -/
theorem townSubscriptionHandler_rejects_and_teardown
    (store : TownStore) (tid tok lid : String) :
    (lookupTown store tid = none →
       townSubscriptionHandler store tid tok lid = SubscribeOutcome.disconnected true) ∧
    (∀ town, lookupTown store tid = some town →
       (∀ s ∈ town.sessions, s.sessionToken ≠ tok) →
       townSubscriptionHandler store tid tok lid = SubscribeOutcome.disconnected true) ∧
    (∀ store', townSubscriptionHandler store tid tok lid = SubscribeOutcome.accepted store' →
       ∃ town2, lookupTown (socketDisconnect store' tid tok lid) tid = some town2 ∧
         lid ∉ town2.listeners ∧
         (∀ evts e, (lid, e) ∉ notifyListeners town2 evts) ∧
         townSubscriptionHandler (socketDisconnect store' tid tok lid) tid tok lid =
           SubscribeOutcome.disconnected true) := by
  refine ⟨?_, ?_, ?_⟩
  · intro h
    rw [townSubscriptionHandler, h]
  · intro town h hs
    rw [townSubscriptionHandler, h]
    simp only
    rw [if_neg]
    intro hc
    obtain ⟨s, hsmem, hbeq⟩ := List.any_eq_true.mp hc
    exact hs s hsmem (beq_iff_eq.mp hbeq)
  · intro store' hacc
    rw [townSubscriptionHandler] at hacc
    cases hlt : lookupTown store tid with
    | none => rw [hlt] at hacc; cases hacc
    | some town =>
      rw [hlt] at hacc
      simp only at hacc
      split at hacc
      case isFalse => cases hacc
      case isTrue hany =>
        cases hacc
        have hsome : (town.sessions.find? (fun s => s.sessionToken == tok)).isSome = true :=
          List.find?_isSome.mpr (List.any_eq_true.mp hany)
        obtain ⟨sess, hsess⟩ := Option.isSome_iff_exists.mp hsome
        have h1 : lookupTown (setTown store tid
            { town with listeners := town.listeners ++ [lid] }) tid =
            some { town with listeners := town.listeners ++ [lid] } :=
          lookupTown_setTown_self store tid _ town hlt
        rw [socketDisconnect, h1]
        simp only
        set town1 : TownState :=
          { town with listeners := (town.listeners ++ [lid]).filter (fun l => l != lid) }
          with htown1
        have hsess1 : town1.sessions.find? (fun s => s.sessionToken == tok) = some sess := hsess
        obtain ⟨hship, hlist⟩ := destroySession_shape town1 tok sess hsess1
        have h2 : lookupTown (setTown (setTown store tid
            { town with listeners := town.listeners ++ [lid] }) tid
            (destroySession town1 tok).1) tid = some (destroySession town1 tok).1 :=
          lookupTown_setTown_self _ tid _ _ h1
        refine ⟨(destroySession town1 tok).1, h2, ?_, ?_, ?_⟩
        · rw [hlist, htown1]
          intro hmem
          have := (List.mem_filter.mp hmem).2
          simp at this
        · intro evts e hmem
          rw [notifyListeners, List.mem_flatten] at hmem
          obtain ⟨inner, hinner, hpair⟩ := hmem
          obtain ⟨e', he', rfl⟩ := List.mem_map.mp hinner
          obtain ⟨l', hl', heq⟩ := List.mem_map.mp hpair
          have hlid : l' = lid := congrArg Prod.fst heq
          rw [hlid] at hl'
          rw [hlist, htown1] at hl'
          have := (List.mem_filter.mp hl').2
          simp at this
        · rw [townSubscriptionHandler, h2]
          simp only
          rw [if_neg]
          intro hc
          obtain ⟨s, hsmem, hbeq⟩ := List.any_eq_true.mp hc
          rw [hship] at hsmem
          have := (List.mem_filter.mp hsmem).2
          rw [beq_iff_eq.mp hbeq] at this
          simp at this

section C8Scenario

/-- Scenario: a town with one player and one session, no listeners yet. -/
def c8Town : TownState :=
  { players := [c1P], sessions := [{ sessionToken := "tok", playerID := "p1" }],
    conversationAreas := [], listeners := [] }

/-- Scenario: the store registering that town under id t1. -/
def c8Store : TownStore := ⟨[("t1", c8Town)]⟩

/-- Scenario: the store after the handler accepted the socket and installed
its bridging listener L. -/
def c8StoreAccepted : TownStore := ⟨[("t1", { c8Town with listeners := ["L"] })]⟩

end C8Scenario

/-- Witness for C8: the accepted socket's disconnect deregisters L and a
second subscription with the same credentials is refused. -/
theorem townSubscriptionHandler_rejects_and_teardown_witness :
    townSubscriptionHandler c8Store "t1" "tok" "L" =
      SubscribeOutcome.accepted c8StoreAccepted ∧
    (∃ town2, lookupTown (socketDisconnect c8StoreAccepted "t1" "tok" "L") "t1" =
        some town2 ∧
      "L" ∉ town2.listeners ∧
      (∀ evts e, ("L", e) ∉ notifyListeners town2 evts) ∧
      townSubscriptionHandler (socketDisconnect c8StoreAccepted "t1" "tok" "L")
        "t1" "tok" "L" = SubscribeOutcome.disconnected true) :=
  ⟨by decide,
   (townSubscriptionHandler_rejects_and_teardown c8Store "t1" "tok" "L").2.2
     c8StoreAccepted (by decide)⟩
